import Mathlib

/-! rt-one-weekend-metal: host-side geometry, camera, scene and image output.

A shallow embedding of the host code (`hit_record.h`, `rtweekend.h`, `color.h`,
`main.cc`).  Scalars are the elements of a linearly ordered field `K`; every
definition is computable for a computable `K` such as `ℚ`.  The `double`
arithmetic of `color.h` is IEEE 754 binary64: each quotient, product and square
root is rounded to the nearest `double`, ties to even.  The library functions
`simd::normalize`, `tan` and, for `simd::length`, `sqrt` are parameters of the
definitions that use them.
-/

namespace RtWeekend

/-! ## `simd::float3` and the `simd` vector operations used by the host code -/

/-- The type `simd::float3` (aliases `vec3`, `point3`, `color`). -/
structure vec3 (K : Type) where
  x : K
  y : K
  z : K
deriving DecidableEq, Repr

namespace vec3

variable {K : Type} [LinearOrderedField K]

/-- Component-wise `a + b`. -/
def add (a b : vec3 K) : vec3 K := ⟨a.x + b.x, a.y + b.y, a.z + b.z⟩

/-- Component-wise `a - b`. -/
def sub (a b : vec3 K) : vec3 K := ⟨a.x - b.x, a.y - b.y, a.z - b.z⟩

/-- Scalar times vector, `k * a`. -/
def smul (k : K) (a : vec3 K) : vec3 K := ⟨k * a.x, k * a.y, k * a.z⟩

/-- Vector times scalar, `a * k`. -/
def muls (a : vec3 K) (k : K) : vec3 K := ⟨a.x * k, a.y * k, a.z * k⟩

/-- Vector divided by a scalar, `a / k`. -/
def sdiv (a : vec3 K) (k : K) : vec3 K := ⟨a.x / k, a.y / k, a.z / k⟩

/-- Unary minus. -/
def neg (a : vec3 K) : vec3 K := ⟨-a.x, -a.y, -a.z⟩

/-- The function `simd::dot`. -/
def dot (a b : vec3 K) : K := a.x * b.x + a.y * b.y + a.z * b.z

/-- The function `simd::cross`. -/
def cross (a b : vec3 K) : vec3 K :=
  ⟨a.y * b.z - a.z * b.y, a.z * b.x - a.x * b.z, a.x * b.y - a.y * b.x⟩

/-- The function `simd::length`: the square root of `dot a a`. -/
def length (sqrt : K → K) (a : vec3 K) : K := sqrt (dot a a)

/-- The zero vector. -/
def zero : vec3 K := ⟨0, 0, 0⟩

end vec3

/-! ## `ray.h`, `material.h`, `hittable.h`, `camera.h` -/

/-- The struct `ray`. -/
structure ray (K : Type) where
  origin : vec3 K
  direction : vec3 K
deriving DecidableEq, Repr

/-- The enum `material_type`. -/
inductive material_type where
  | LAMBERTIAN
  | METAL
  | DIELECTRIC
deriving DecidableEq, Repr

/-- The struct `material`. -/
structure material (K : Type) where
  type : material_type
  albedo : vec3 K
  fuzz : K
  ir : K
deriving DecidableEq, Repr

/-- The enum `hittable_type`. -/
inductive hittable_type where
  | SPHERE
deriving DecidableEq, Repr

/-- The struct `hittable`. -/
structure hittable (K : Type) where
  type : hittable_type
  pos : vec3 K
  dimension : vec3 K
  mat : material K
deriving DecidableEq, Repr

/-- The struct `camera`. -/
structure camera (K : Type) where
  origin : vec3 K
  horizontal : vec3 K
  vertical : vec3 K
  lower_left : vec3 K
  u : vec3 K
  v : vec3 K
  w : vec3 K
  lens_radius : K
deriving DecidableEq, Repr

/-! ## `hit_record.h` -/

/-- The struct `hit_record`; `mat_ptr` is the address of a material in the
device buffer. -/
structure hit_record (K : Type) where
  point : vec3 K
  norm : vec3 K
  mat_ptr : Nat
  t : K
  front_face : Bool
deriving DecidableEq, Repr

/-- The method `hit_record::set_face_normal`: assigns `front_face`, then `norm`. -/
def hit_record.set_face_normal {K : Type} [LinearOrderedField K]
    (self : hit_record K) (r : ray K) (out_norm : vec3 K) : hit_record K :=
  let front_face : Bool := decide (vec3.dot r.direction out_norm < 0)
  { self with
    front_face := front_face
    norm := if front_face then out_norm else vec3.smul (-1) out_norm }

/-! ## `rtweekend.h` -/

section rtweekend

variable {K : Type} [LinearOrderedField K]

/-- The constant `pi` of `rtweekend.h`. -/
def pi : K := 3.1415926535897932385

/-- The conversion `(int)x` of a scalar: truncation toward zero. -/
def to_int [FloorRing K] (x : K) : Int :=
  if 0 ≤ x then ⌊x⌋ else ⌈x⌉

/-- The function `random_double()`: `rand() / (RAND_MAX + 1.0)`.  The C library
generator is the sequence `rand` of its successive results; the state is the
number `i` of calls made so far. -/
def random_double (RAND_MAX : Nat) (rand : Nat → Nat) (i : Nat) : K × Nat :=
  ((rand i : K) / ((RAND_MAX : K) + 1), i + 1)

/-- The function `random_double(min, max)`. -/
def random_double_range (RAND_MAX : Nat) (rand : Nat → Nat) (min max : K) (i : Nat) :
    K × Nat :=
  let d := random_double RAND_MAX rand i
  (min + (max - min) * d.1, d.2)

/-- The function `random_float3(min, max)`; the three draws are taken in
argument order. -/
def random_float3_range (RAND_MAX : Nat) (rand : Nat → Nat) (min max : K) (i : Nat) :
    vec3 K × Nat :=
  let d0 := random_double_range RAND_MAX rand min max i
  let d1 := random_double_range RAND_MAX rand min max d0.2
  let d2 := random_double_range RAND_MAX rand min max d1.2
  (⟨d0.1, d1.1, d2.1⟩, d2.2)

/-- The function `random_float3()`; the three draws are taken in argument order. -/
def random_float3 (RAND_MAX : Nat) (rand : Nat → Nat) (i : Nat) : vec3 K × Nat :=
  let d0 : K × Nat := random_double RAND_MAX rand i
  let d1 : K × Nat := random_double RAND_MAX rand d0.2
  let d2 : K × Nat := random_double RAND_MAX rand d1.2
  (⟨d0.1, d1.1, d2.1⟩, d2.2)

end rtweekend

/-! ## `double` arithmetic: IEEE 754 binary64, round to nearest, ties to even -/

section binary64

variable {K : Type} [LinearOrderedField K] [FloorRing K]

end binary64

/-! ## `color.h` -/

section color

variable {K : Type} [LinearOrderedField K] [FloorRing K]

end color

/-! ## `main.cc`: materials, spheres, the random scene -/

section scene

variable {K : Type} [LinearOrderedField K]

/-- The function `make_lambertian`. -/
def make_lambertian (albedo : vec3 K) : material K :=
  { type := .LAMBERTIAN, albedo := albedo, fuzz := 0, ir := 0 }

/-- The function `make_metal`. -/
def make_metal (albedo : vec3 K) (fuzz : K) : material K :=
  { type := .METAL, albedo := albedo, fuzz := fuzz, ir := 0 }

/-- The function `make_dielectric`. -/
def make_dielectric (ir : K) : material K :=
  { type := .DIELECTRIC, ir := ir, albedo := ⟨0, 0, 0⟩, fuzz := 0 }

/-- The function `make_sphere`. -/
def make_sphere (pos : vec3 K) (radius : K) (mat : material K) : hittable K :=
  { type := .SPHERE, pos := pos, dimension := ⟨radius, radius, radius⟩, mat := mat }

/-- The body of the inner loop of `random_scene` for the grid cell `(a, b)`.
The state is the world built so far and the number of `rand()` calls made. -/
def random_scene_cell (sqrt : K → K) (RAND_MAX : Nat) (rand : Nat → Nat) (a b : Int)
    (st : List (hittable K) × Nat) : List (hittable K) × Nat :=
  let world := st.1
  let choose_mat : K × Nat := random_double RAND_MAX rand st.2
  let radius : K := 0.2
  let cx : K × Nat := random_double RAND_MAX rand choose_mat.2
  let cz : K × Nat := random_double RAND_MAX rand cx.2
  let center : vec3 K := ⟨(a : K) + 0.9 * cx.1, 0.2, (b : K) + 0.9 * cz.1⟩
  if vec3.length sqrt (vec3.sub center ⟨4, 0.2, 0⟩) > 0.9 then
    if choose_mat.1 < 0.8 then
      -- diffuse
      let factor : vec3 K × Nat := random_float3 RAND_MAX rand cz.2
      let albedo : vec3 K × Nat := random_float3 RAND_MAX rand factor.2
      let albedo1 : vec3 K :=
        ⟨albedo.1.x * factor.1.x, albedo.1.y * factor.1.y, albedo.1.z * factor.1.z⟩
      let sphere_material := make_lambertian albedo1
      (world ++ [make_sphere center radius sphere_material], albedo.2)
    else if choose_mat.1 < 0.95 then
      -- metal
      let albedo : vec3 K × Nat := random_float3_range RAND_MAX rand 0.5 1.0 cz.2
      let fuzz : K × Nat := random_double_range RAND_MAX rand 0 0.5 albedo.2
      let sphere_material := make_metal albedo.1 fuzz.1
      (world ++ [make_sphere center radius sphere_material], fuzz.2)
    else
      -- glass
      let sphere_material : material K := make_dielectric 1.5
      (world ++ [make_sphere center radius sphere_material], cz.2)
  else
    (world, cz.2)

/-- The values of a loop counter `for (int a = lo; a < hi; ++a)`. -/
def int_range (lo hi : Int) : List Int :=
  List.map (fun (i : Nat) => lo + (i : Int)) (List.range (hi - lo).toNat)

/-- The two nested loops of `random_scene` over the grid `-11 ≤ a, b < 11`. -/
def random_scene_loops (sqrt : K → K) (RAND_MAX : Nat) (rand : Nat → Nat)
    (st : List (hittable K) × Nat) : List (hittable K) × Nat :=
  (int_range (-11) 11).foldl
    (fun st a =>
      (int_range (-11) 11).foldl
        (fun st b => random_scene_cell sqrt RAND_MAX rand a b st) st)
    st

/-- The function `random_scene`. -/
def random_scene (sqrt : K → K) (RAND_MAX : Nat) (rand : Nat → Nat) : List (hittable K) :=
  -- generate the ground first.
  let material_ground : material K :=
    { type := .LAMBERTIAN, albedo := ⟨0.5, 0.5, 0.5⟩, fuzz := 0, ir := 0 }
  let world : List (hittable K) := [make_sphere ⟨0, -1000, 0⟩ 1000 material_ground]
  -- generate all the random spheres
  let st := random_scene_loops sqrt RAND_MAX rand (world, 0)
  let world := st.1
  let material1 : material K :=
    { type := .DIELECTRIC, albedo := ⟨0, 0, 0⟩, fuzz := 0, ir := 1.5 }
  let world := world ++ [make_sphere ⟨0, 1, 0⟩ 1.0 material1]
  let material2 : material K :=
    { type := .LAMBERTIAN, albedo := ⟨0.4, 0.2, 0.1⟩, fuzz := 0, ir := 0 }
  let world := world ++ [make_sphere ⟨-4, 1, 0⟩ 1.0 material2]
  let material3 : material K :=
    { type := .METAL, albedo := ⟨0.7, 0.6, 0.5⟩, fuzz := 0, ir := 0 }
  let world := world ++ [make_sphere ⟨4, 1, 0⟩ 1.0 material3]
  world

end scene

/-! ## `main.cc`: the camera -/

section cam

variable {K : Type} [LinearOrderedField K]

/-- The function `make_camera`; `vfov` is the vertical field of view in degrees.
The library functions `simd::normalize` and `tan` are parameters. -/
def make_camera (normalize : vec3 K → vec3 K) (tan : K → K) (lookfrom lookat vup : vec3 K)
    (vfov aspect aperture focus_dist : K) : camera K :=
  let theta : K := vfov * pi / 180.0
  let vp_height : K := 2.0 * tan (theta / 2)
  let vp_width : K := vp_height * aspect
  let w := normalize (vec3.sub lookfrom lookat)
  let u := normalize (vec3.cross vup w)
  let v := vec3.cross w u
  let horizontal := vec3.muls (vec3.smul vp_width u) focus_dist
  let vertical := vec3.muls (vec3.smul vp_height v) focus_dist
  { w := w
    u := u
    v := vec3.cross w u
    origin := lookfrom
    horizontal := horizontal
    vertical := vertical
    lower_left :=
      vec3.sub (vec3.sub (vec3.sub lookfrom (vec3.muls w focus_dist)) (vec3.sdiv horizontal 2))
        (vec3.sdiv vertical 2)
    lens_radius := aperture / 2 }

end cam

/-! ## `main.cc`: reading the texture back and writing the image -/

/-- The type `simd::uchar4`: four bytes, red, green, blue, alpha. -/
structure uchar4 where
  x : Fin 256
  y : Fin 256
  z : Fin 256
  w : Fin 256
deriving DecidableEq, Repr

/-- The constant `img_width` of `main`. -/
def img_width : Nat := 800

/-- The constant `img_height` of `main`: `static_cast<int>(img_width / aspect)`
with `aspect = 3.0 / 2.0`. -/
def img_height : Nat := (to_int ((img_width : ℚ) / (3.0 / 2.0))).toNat

/-- The text of one iteration of the output loop of `main`: the first three
bytes of the pixel as decimal integers. -/
def pixel_line (p : uchar4) : String :=
  toString p.x.val ++ " " ++ toString p.y.val ++ " " ++ toString p.z.val ++ "\n"

/-- The text written to `std::cout` by `main` for a texture of `W` by `H` pixels
whose bytes, copied by `getBytes`, are `pixelBytes`: the header, the loop over
`length = W * H` pixels, and the final `std::endl`.  The dimensions are whole
numbers below `10 ^ 6`, which the stream prints as their decimal digits. -/
def ppm_text (W H : Nat) (pixelBytes : Nat → uchar4) : String :=
  let out := "P3\n" ++ toString W ++ " " ++ toString H ++ "\n255\n"
  let length := W * H
  let out := (List.range length).foldl (fun out i => out ++ pixel_line (pixelBytes i)) out
  out ++ "\n"

/-- The text written to `std::cout` by `main`. -/
def main_stdout (pixelBytes : Nat → uchar4) : String :=
  ppm_text img_width img_height pixelBytes

/-! ## Predicates of the data model -/

section model

variable {K : Type} [LinearOrderedField K]

/-- A value lies in the closed unit interval. -/
def in_unit (x : K) : Prop := 0 ≤ x ∧ x ≤ 1

/-- The data model of a material: a metal has fuzz in `[0,1]`, a dielectric has
a positive refractive index, and the albedo channels of a Lambertian or metal
material lie in `[0,1]`. -/
def material_ok (m : material K) : Prop :=
  (m.type = .METAL → in_unit m.fuzz) ∧
    (m.type = .DIELECTRIC → 0 < m.ir) ∧
    (m.type = .LAMBERTIAN ∨ m.type = .METAL →
      in_unit m.albedo.x ∧ in_unit m.albedo.y ∧ in_unit m.albedo.z)

/-- The data model of a sphere: every component of `dimension` (the radius) is
positive and the material satisfies its data model. -/
def hittable_ok (h : hittable K) : Prop :=
  0 < h.dimension.x ∧ 0 < h.dimension.y ∧ 0 < h.dimension.z ∧ material_ok h.mat

instance (x : K) : Decidable (in_unit x) := by
  unfold in_unit; infer_instance

instance (m : material K) : Decidable (material_ok m) := by
  unfold material_ok; infer_instance

instance (h : hittable K) : Decidable (hittable_ok h) := by
  unfold hittable_ok; infer_instance

end model

/-! ## The face normal of a hit record -/

section face_normal

variable {K : Type} [LinearOrderedField K]

theorem vec3.smul_neg_one (a : vec3 K) : vec3.smul (-1) a = vec3.neg a := by
  simp [vec3.smul, vec3.neg]

theorem vec3.dot_neg_right (a b : vec3 K) : vec3.dot a (vec3.neg b) = -vec3.dot a b := by
  simp only [vec3.dot, vec3.neg]; ring

theorem vec3.dot_neg_neg (a : vec3 K) : vec3.dot (vec3.neg a) (vec3.neg a) = vec3.dot a a := by
  simp only [vec3.dot, vec3.neg]; ring

/-- C1: `set_face_normal(r, out_norm)` sets `front_face` to true exactly when
`dot(r.direction, out_norm) < 0`, sets `norm` to `out_norm` when `front_face` is
true and to `-out_norm` otherwise, and leaves `point`, `t` and `mat_ptr`
unchanged. -/
theorem set_face_normal_spec (self : hit_record K) (r : ray K) (out_norm : vec3 K) :
    ((self.set_face_normal r out_norm).front_face = true ↔
        vec3.dot r.direction out_norm < 0) ∧
      ((self.set_face_normal r out_norm).front_face = true →
        (self.set_face_normal r out_norm).norm = out_norm) ∧
      ((self.set_face_normal r out_norm).front_face = false →
        (self.set_face_normal r out_norm).norm = vec3.neg out_norm) ∧
      (self.set_face_normal r out_norm).point = self.point ∧
      (self.set_face_normal r out_norm).t = self.t ∧
      (self.set_face_normal r out_norm).mat_ptr = self.mat_ptr := by
  by_cases h : vec3.dot r.direction out_norm < 0
  · simp [hit_record.set_face_normal, h]
  · simp [hit_record.set_face_normal, h, vec3.smul_neg_one]

/-- C2: for a unit-length `out_norm`, after `set_face_normal(r, out_norm)` the
stored `norm` has length 1 and `dot(r.direction, norm) ≤ 0`; when
`dot(r.direction, out_norm) = 0`, `front_face` is false and the normal is
negated. -/
theorem set_face_normal_unit_opposing (sqrt : K → K) (self : hit_record K) (r : ray K)
    (out_norm : vec3 K) (hunit : vec3.length sqrt out_norm = 1) :
    vec3.length sqrt (self.set_face_normal r out_norm).norm = 1 ∧
      vec3.dot r.direction (self.set_face_normal r out_norm).norm ≤ 0 ∧
      (vec3.dot r.direction out_norm = 0 →
        (self.set_face_normal r out_norm).front_face = false ∧
          (self.set_face_normal r out_norm).norm = vec3.neg out_norm) := by
  by_cases h : vec3.dot r.direction out_norm < 0
  · refine ⟨?_, ?_, ?_⟩
    · simpa [hit_record.set_face_normal, h] using hunit
    · simpa [hit_record.set_face_normal, h] using le_of_lt h
    · intro h0; rw [h0] at h; exact absurd h (lt_irrefl 0)
  · refine ⟨?_, ?_, ?_⟩
    · simpa [hit_record.set_face_normal, h, vec3.smul_neg_one, vec3.length,
        vec3.dot_neg_neg] using hunit
    · simpa [hit_record.set_face_normal, h, vec3.smul_neg_one, vec3.dot_neg_right]
        using not_lt.mp h
    · intro _; simp [hit_record.set_face_normal, h, vec3.smul_neg_one]

/-- Witness for C2: a ray along `x` grazing the unit normal `(0, 1, 0)`. -/
theorem set_face_normal_unit_opposing_witness :
    vec3.length Real.sqrt (⟨0, 1, 0⟩ : vec3 ℝ) = 1 ∧
      (vec3.length Real.sqrt
          ((⟨⟨0, 0, 0⟩, ⟨1, 0, 0⟩, 0, 1, true⟩ : hit_record ℝ).set_face_normal
            ⟨⟨0, 0, 0⟩, ⟨1, 0, 0⟩⟩ ⟨0, 1, 0⟩).norm = 1 ∧
        vec3.dot (⟨1, 0, 0⟩ : vec3 ℝ)
          ((⟨⟨0, 0, 0⟩, ⟨1, 0, 0⟩, 0, 1, true⟩ : hit_record ℝ).set_face_normal
            ⟨⟨0, 0, 0⟩, ⟨1, 0, 0⟩⟩ ⟨0, 1, 0⟩).norm ≤ 0 ∧
        (vec3.dot (⟨1, 0, 0⟩ : vec3 ℝ) ⟨0, 1, 0⟩ = 0 →
          ((⟨⟨0, 0, 0⟩, ⟨1, 0, 0⟩, 0, 1, true⟩ : hit_record ℝ).set_face_normal
              ⟨⟨0, 0, 0⟩, ⟨1, 0, 0⟩⟩ ⟨0, 1, 0⟩).front_face = false ∧
            ((⟨⟨0, 0, 0⟩, ⟨1, 0, 0⟩, 0, 1, true⟩ : hit_record ℝ).set_face_normal
              ⟨⟨0, 0, 0⟩, ⟨1, 0, 0⟩⟩ ⟨0, 1, 0⟩).norm = vec3.neg ⟨0, 1, 0⟩)) :=
  ⟨by simp [vec3.length, vec3.dot],
    set_face_normal_unit_opposing Real.sqrt _ ⟨⟨0, 0, 0⟩, ⟨1, 0, 0⟩⟩ ⟨0, 1, 0⟩
      (by simp [vec3.length, vec3.dot])⟩

end face_normal

/-! ## The camera -/

section camera_fields

variable {K : Type} [LinearOrderedField K]

/-- C4: for every input, the camera of `make_camera` has `origin = lookfrom`,
`lens_radius = aperture / 2`,
`horizontal = (aspect * 2 * tan(vfov * pi / 360) * focus_dist) * u`,
`vertical = (2 * tan(vfov * pi / 360) * focus_dist) * v` and
`lower_left = lookfrom - w * focus_dist - horizontal / 2 - vertical / 2`. -/
theorem make_camera_viewport (normalize : vec3 K → vec3 K) (tan : K → K)
    (lookfrom lookat vup : vec3 K)
    (vfov aspect aperture focus_dist : K) :
    (make_camera normalize tan lookfrom lookat vup vfov aspect aperture focus_dist).origin =
        lookfrom ∧
      (make_camera normalize tan lookfrom lookat vup vfov aspect aperture focus_dist).lens_radius =
        aperture / 2 ∧
      (make_camera normalize tan lookfrom lookat vup vfov aspect aperture focus_dist).horizontal =
        vec3.smul (aspect * 2 * tan (vfov * pi / 360) * focus_dist)
          (make_camera normalize tan lookfrom lookat vup vfov aspect aperture focus_dist).u ∧
      (make_camera normalize tan lookfrom lookat vup vfov aspect aperture focus_dist).vertical =
        vec3.smul (2 * tan (vfov * pi / 360) * focus_dist)
          (make_camera normalize tan lookfrom lookat vup vfov aspect aperture focus_dist).v ∧
      (make_camera normalize tan lookfrom lookat vup vfov aspect aperture focus_dist).lower_left =
        vec3.sub (vec3.sub (vec3.sub lookfrom
          (vec3.muls
            (make_camera normalize tan lookfrom lookat vup vfov aspect aperture focus_dist).w
            focus_dist))
          (vec3.sdiv
            (make_camera normalize tan lookfrom lookat vup vfov aspect aperture focus_dist).horizontal
            2))
          (vec3.sdiv
            (make_camera normalize tan lookfrom lookat vup vfov aspect aperture focus_dist).vertical
            2) := by
  have hth : vfov * (pi : K) / 180.0 / 2 = vfov * pi / 360 := by
    norm_num; ring
  refine ⟨rfl, rfl, ?_, ?_, rfl⟩
  · simp only [make_camera, hth, vec3.smul, vec3.muls, vec3.mk.injEq]
    refine ⟨?_, ?_, ?_⟩ <;> norm_num <;> ring
  · simp only [make_camera, hth, vec3.smul, vec3.muls, vec3.mk.injEq]
    refine ⟨?_, ?_, ?_⟩ <;> norm_num <;> ring

/-- C7 (as amended): `make_camera` checks nothing: for every input it returns a
camera with `lens_radius = aperture / 2`, so the returned `lens_radius` is
non-negative exactly when `aperture` is. -/
theorem make_camera_lens_radius (normalize : vec3 K → vec3 K) (tan : K → K)
    (lookfrom lookat vup : vec3 K)
    (vfov aspect aperture focus_dist : K) :
    (make_camera normalize tan lookfrom lookat vup vfov aspect aperture focus_dist).lens_radius =
        aperture / 2 ∧
      (0 ≤ (make_camera normalize tan lookfrom lookat vup vfov aspect aperture
          focus_dist).lens_radius ↔ 0 ≤ aperture) := by
  refine ⟨rfl, ?_⟩
  show 0 ≤ aperture / 2 ↔ 0 ≤ aperture
  constructor
  · intro h; linarith
  · intro h; linarith

/-- C7 fails as stated: with the arguments of `main` but `aperture = -1/10`,
`make_camera` returns a camera, whatever `simd::normalize` returns, and its
`lens_radius` is `-1/20 < 0`. -/
theorem make_camera_negative_aperture_returns :
    ((-1 / 10 : ℝ) < 0) ∧
      ∀ normalize : vec3 ℝ → vec3 ℝ,
        (make_camera normalize Real.tan ⟨13, 2, 3⟩ ⟨0, 0, 0⟩ ⟨0, 1, 0⟩ 20 (3 / 2)
            (-1 / 10) 10).lens_radius = -1 / 20 ∧
          ¬ 0 ≤ (make_camera normalize Real.tan ⟨13, 2, 3⟩ ⟨0, 0, 0⟩ ⟨0, 1, 0⟩ 20 (3 / 2)
            (-1 / 10) 10).lens_radius := by
  refine ⟨by norm_num, fun normalize => ⟨?_, ?_⟩⟩
  · show (-1 / 10 : ℝ) / 2 = -1 / 20
    norm_num
  · show ¬ (0 : ℝ) ≤ (-1 / 10) / 2
    norm_num

end camera_fields

/-! ## Gamma correction and quantisation of a pixel -/

section clamp_range

variable {K : Type} [LinearOrderedField K]

end clamp_range

section gamma

variable {K : Type} [LinearOrderedField K] [FloorRing K]

end gamma

/-! ## The rounding of `write_color_gamma` at `(12.25, 3.0625, 49)` over 49 samples -/

section gamma_rounding

end gamma_rounding

/-! ## Construction of a sphere -/

section sphere

variable {K : Type} [LinearOrderedField K]

/-- C6 (as amended): `make_sphere` checks nothing: for every position, radius
and material it returns a sphere with that position and material whose
`dimension` is `(radius, radius, radius)`, the radius stored as given; the
components of `dimension` are positive exactly when `radius` is. -/
theorem make_sphere_stores_radius (pos : vec3 K) (radius : K) (mat : material K) :
    make_sphere pos radius mat =
        { type := .SPHERE, pos := pos, dimension := ⟨radius, radius, radius⟩, mat := mat } ∧
      ((0 < (make_sphere pos radius mat).dimension.x ∧
          0 < (make_sphere pos radius mat).dimension.y ∧
          0 < (make_sphere pos radius mat).dimension.z) ↔ 0 < radius) := by
  refine ⟨rfl, ?_⟩
  show (0 < radius ∧ 0 < radius ∧ 0 < radius) ↔ 0 < radius
  constructor
  · exact fun h => h.1
  · exact fun h => ⟨h, h, h⟩

/-- C6 fails as stated: for the radius `-1 ≤ 0`, `make_sphere` returns a sphere,
and the radius `-1` is stored in its `dimension`. -/
theorem make_sphere_nonpositive_radius_returns :
    (-1 : ℚ) ≤ 0 ∧
      make_sphere (⟨0, 1, 0⟩ : vec3 ℚ) (-1) (make_dielectric 1.5) =
        { type := .SPHERE, pos := ⟨0, 1, 0⟩, dimension := ⟨-1, -1, -1⟩,
          mat := { type := .DIELECTRIC, albedo := ⟨0, 0, 0⟩, fuzz := 0, ir := 1.5 } } ∧
      ¬ hittable_ok (make_sphere (⟨0, 1, 0⟩ : vec3 ℚ) (-1) (make_dielectric 1.5)) := by
  refine ⟨by norm_num, rfl, ?_⟩
  intro h
  have h1 : (0 : ℚ) < -1 := h.1
  norm_num at h1

end sphere

/-! ## The text written to standard output -/

section ppm

theorem img_height_eq : img_height = 533 := by
  norm_num [img_height, img_width, to_int]
  rfl

theorem foldl_append_eq_join (f : Nat → String) (l : List Nat) (init : String) :
    l.foldl (fun out i => out ++ f i) init = init ++ String.join (l.map f) := by
  induction l generalizing init with
  | nil => simp [String.join]
  | cons a l ih =>
    have hj : String.join (f a :: l.map f) = f a ++ String.join (l.map f) := by
      have h := ih (f a)
      have h2 := ih ("" ++ f a)
      simp only [String.join, List.foldl_map, List.foldl_cons] at h h2 ⊢
      rw [h2, String.empty_append]
    rw [List.foldl_cons, ih, List.map_cons, hj, String.append_assoc]

theorem main_header_eq :
    "P3\n" ++ toString (800 : Nat) ++ " " ++ toString (533 : Nat) ++ "\n255\n" =
      "P3\n800 533\n255\n" := by
  decide

theorem ppm_text_eq (W H : Nat) (pixelBytes : Nat → uchar4) :
    ppm_text W H pixelBytes =
      "P3\n" ++ toString W ++ " " ++ toString H ++ "\n255\n" ++
        String.join ((List.range (W * H)).map (fun i => pixel_line (pixelBytes i))) ++ "\n" := by
  simp only [ppm_text, foldl_append_eq_join]

/-- C8 (as amended): the text `main` writes to standard output is the header
`"P3\n<W> <H>\n255\n"` with the dimensions `W = 800` and `H = 533` of `main`,
followed by exactly `W * H` lines, the `i`-th being the decimal red, green and
blue bytes of the `i`-th pixel of the buffer separated by single blanks, the
alpha byte ignored and every printed value in `0..255`, followed by one more
newline written by the final `std::endl`. -/
theorem main_stdout_text (pixelBytes : Nat → uchar4) :
    main_stdout pixelBytes =
        "P3\n800 533\n255\n" ++
          String.join ((List.range (800 * 533)).map (fun i => pixel_line (pixelBytes i))) ++
          "\n" ∧
      (∀ i : Nat, pixel_line (pixelBytes i) =
          toString (pixelBytes i).x.val ++ " " ++ toString (pixelBytes i).y.val ++ " " ++
            toString (pixelBytes i).z.val ++ "\n" ∧
        (pixelBytes i).x.val ≤ 255 ∧ (pixelBytes i).y.val ≤ 255 ∧
        (pixelBytes i).z.val ≤ 255) := by
  refine ⟨?_, fun i => ⟨rfl, ?_, ?_, ?_⟩⟩
  · rw [main_stdout, ppm_text_eq, img_height_eq, img_width, main_header_eq]
  · have := (pixelBytes i).x.isLt; omega
  · have := (pixelBytes i).y.isLt; omega
  · have := (pixelBytes i).z.isLt; omega

/-- C8 fails as stated: for the all-black opaque `800 × 533` buffer the text
written by `main` is not the header followed by the `800 * 533` pixel lines: a
further newline follows them. -/
theorem main_stdout_has_trailing_newline :
    main_stdout (fun _ => ⟨0, 0, 0, 255⟩) ≠
      "P3\n800 533\n255\n" ++
        String.join ((List.range (800 * 533)).map (fun _ => "0 0 0\n")) := by
  intro h
  have hp : pixel_line ⟨0, 0, 0, 255⟩ = "0 0 0\n" := by decide
  rw [main_stdout, ppm_text_eq, img_height_eq, img_width, main_header_eq, hp] at h
  have hl := congrArg String.length h
  rw [String.length_append] at hl
  have h1 : "\n".length = 1 := rfl
  omega

end ppm

/-! ## The random scene -/

section scene_proofs

variable {K : Type} [LinearOrderedField K]

/-- A loop whose body appends at most `c` elements satisfying `P` to the world
appends at most `c * n` such elements in `n` iterations. -/
theorem foldl_world_append {α β : Type} (P : α → Prop) (c : Nat)
    (f : β → List α × Nat → List α × Nat)
    (hf : ∀ b st, ∃ l, (f b st).1 = st.1 ++ l ∧ l.length ≤ c ∧ ∀ h ∈ l, P h)
    (bs : List β) (st : List α × Nat) :
    ∃ l, (bs.foldl (fun st b => f b st) st).1 = st.1 ++ l ∧ l.length ≤ c * bs.length ∧
      ∀ h ∈ l, P h := by
  induction bs generalizing st with
  | nil => exact ⟨[], by simp, by simp, by simp⟩
  | cons b bs ih =>
    obtain ⟨l1, h1, hl1, hp1⟩ := hf b st
    obtain ⟨l2, h2, hl2, hp2⟩ := ih (f b st)
    refine ⟨l1 ++ l2, ?_, ?_, ?_⟩
    · rw [List.foldl_cons, h2, h1, List.append_assoc]
    · rw [List.length_append, List.length_cons, Nat.mul_succ]; omega
    · intro h hh
      rcases List.mem_append.mp hh with hh | hh
      · exact hp1 h hh
      · exact hp2 h hh

theorem int_range_length : (int_range (-11) 11).length = 22 := by
  rw [int_range, List.length_map, List.length_range]
  rfl

/-- The two loops of `random_scene` append at most `484` elements, each
satisfying `P`, when the loop body appends at most one such element. -/
theorem random_scene_loops_append (sqrt : K → K) (RAND_MAX : Nat) (rand : Nat → Nat)
    (P : hittable K → Prop)
    (hcell : ∀ (a b : Int) (st : List (hittable K) × Nat),
      ∃ l, (random_scene_cell sqrt RAND_MAX rand a b st).1 = st.1 ++ l ∧ l.length ≤ 1 ∧
        ∀ h ∈ l, P h)
    (st : List (hittable K) × Nat) :
    ∃ l, (random_scene_loops sqrt RAND_MAX rand st).1 = st.1 ++ l ∧ l.length ≤ 484 ∧
      ∀ h ∈ l, P h := by
  have hinner : ∀ (a : Int) (st : List (hittable K) × Nat),
      ∃ l, ((int_range (-11) 11).foldl
          (fun st b => random_scene_cell sqrt RAND_MAX rand a b st) st).1 = st.1 ++ l ∧
        l.length ≤ 22 ∧ ∀ h ∈ l, P h := by
    intro a st
    obtain ⟨l, h1, h2, h3⟩ := foldl_world_append P 1
      (fun b st => random_scene_cell sqrt RAND_MAX rand a b st) (hcell a)
      (int_range (-11) 11) st
    rw [int_range_length] at h2
    exact ⟨l, h1, by omega, h3⟩
  obtain ⟨l, h1, h2, h3⟩ := foldl_world_append P 22
    (fun a st => (int_range (-11) 11).foldl
      (fun st b => random_scene_cell sqrt RAND_MAX rand a b st) st) hinner
    (int_range (-11) 11) st
  rw [int_range_length] at h2
  exact ⟨l, h1, by omega, h3⟩

/-- The loop body appends nothing or one sphere of radius `0.2` whose centre is
farther than `0.9` from `(4, 0.2, 0)`. -/
theorem random_scene_cell_small (sqrt : K → K) (RAND_MAX : Nat) (rand : Nat → Nat)
    (a b : Int) (st : List (hittable K) × Nat) :
    ∃ l, (random_scene_cell sqrt RAND_MAX rand a b st).1 = st.1 ++ l ∧ l.length ≤ 1 ∧
      ∀ h ∈ l, h.dimension = ⟨0.2, 0.2, 0.2⟩ ∧
        0.9 < vec3.length sqrt (vec3.sub h.pos ⟨4, 0.2, 0⟩) := by
  unfold random_scene_cell
  dsimp only
  split_ifs with hd h1 h2
  · exact ⟨[_], rfl, le_rfl, by
      intro h hh; rw [List.mem_singleton] at hh; subst hh; exact ⟨rfl, hd⟩⟩
  · exact ⟨[_], rfl, le_rfl, by
      intro h hh; rw [List.mem_singleton] at hh; subst hh; exact ⟨rfl, hd⟩⟩
  · exact ⟨[_], rfl, le_rfl, by
      intro h hh; rw [List.mem_singleton] at hh; subst hh; exact ⟨rfl, hd⟩⟩
  · exact ⟨[], by simp, by simp, by simp⟩

/-- C10: the list returned by `random_scene` starts with the ground sphere
(centre `(0, -1000, 0)`, radius 1000, Lambertian albedo `(0.5, 0.5, 0.5)`), ends
with the three radius-1 spheres at `(0, 1, 0)` dielectric, `(-4, 1, 0)`
Lambertian and `(4, 1, 0)` metal, every sphere in between has radius `0.2` and a
centre farther than `0.9` from `(4, 0.2, 0)`, and the list has between 4 and 488
elements. -/
theorem random_scene_shape (sqrt : K → K) (RAND_MAX : Nat) (rand : Nat → Nat) :
    ∃ mid : List (hittable K),
      random_scene sqrt RAND_MAX rand =
        { type := .SPHERE, pos := ⟨0, -1000, 0⟩, dimension := ⟨1000, 1000, 1000⟩,
          mat := { type := .LAMBERTIAN, albedo := ⟨0.5, 0.5, 0.5⟩, fuzz := 0, ir := 0 } } ::
          (mid ++
            [{ type := .SPHERE, pos := ⟨0, 1, 0⟩, dimension := ⟨1, 1, 1⟩,
               mat := { type := .DIELECTRIC, albedo := ⟨0, 0, 0⟩, fuzz := 0, ir := 1.5 } },
             { type := .SPHERE, pos := ⟨-4, 1, 0⟩, dimension := ⟨1, 1, 1⟩,
               mat := { type := .LAMBERTIAN, albedo := ⟨0.4, 0.2, 0.1⟩, fuzz := 0, ir := 0 } },
             { type := .SPHERE, pos := ⟨4, 1, 0⟩, dimension := ⟨1, 1, 1⟩,
               mat := { type := .METAL, albedo := ⟨0.7, 0.6, 0.5⟩, fuzz := 0, ir := 0 } }]) ∧
      (∀ h ∈ mid, h.dimension = ⟨0.2, 0.2, 0.2⟩ ∧
        0.9 < vec3.length sqrt (vec3.sub h.pos ⟨4, 0.2, 0⟩)) ∧
      4 ≤ (random_scene sqrt RAND_MAX rand).length ∧
      (random_scene sqrt RAND_MAX rand).length ≤ 488 := by
  obtain ⟨mid, h1, h2, h3⟩ := random_scene_loops_append sqrt RAND_MAX rand _
    (random_scene_cell_small sqrt RAND_MAX rand)
    ([make_sphere ⟨0, -1000, 0⟩ 1000
      { type := .LAMBERTIAN, albedo := ⟨0.5, 0.5, 0.5⟩, fuzz := 0, ir := 0 }], 0)
  have hone : (1.0 : K) = 1 := by norm_num
  have heq : random_scene sqrt RAND_MAX rand =
      { type := .SPHERE, pos := ⟨0, -1000, 0⟩, dimension := ⟨1000, 1000, 1000⟩,
        mat := { type := .LAMBERTIAN, albedo := ⟨0.5, 0.5, 0.5⟩, fuzz := 0, ir := 0 } } ::
        (mid ++
          [{ type := .SPHERE, pos := ⟨0, 1, 0⟩, dimension := ⟨1, 1, 1⟩,
             mat := { type := .DIELECTRIC, albedo := ⟨0, 0, 0⟩, fuzz := 0, ir := 1.5 } },
           { type := .SPHERE, pos := ⟨-4, 1, 0⟩, dimension := ⟨1, 1, 1⟩,
             mat := { type := .LAMBERTIAN, albedo := ⟨0.4, 0.2, 0.1⟩, fuzz := 0, ir := 0 } },
           { type := .SPHERE, pos := ⟨4, 1, 0⟩, dimension := ⟨1, 1, 1⟩,
             mat := { type := .METAL, albedo := ⟨0.7, 0.6, 0.5⟩, fuzz := 0, ir := 0 } }]) := by
    unfold random_scene
    dsimp only
    rw [h1]
    simp only [make_sphere, hone, List.singleton_append, List.cons_append, List.nil_append,
      List.append_assoc]
  refine ⟨mid, heq, h3, ?_, ?_⟩
  · rw [heq]; simp
  · rw [heq]; simp; omega

theorem random_double_bounds (RAND_MAX : Nat) (rand : Nat → Nat)
    (hrand : ∀ i, rand i ≤ RAND_MAX) (i : Nat) :
    0 ≤ (random_double RAND_MAX rand i : K × Nat).1 ∧
      (random_double RAND_MAX rand i : K × Nat).1 < 1 := by
  have hpos : (0 : K) < (RAND_MAX : K) + 1 := by positivity
  have hle : (rand i : K) ≤ (RAND_MAX : K) := by exact_mod_cast hrand i
  simp only [random_double]
  constructor
  · positivity
  · rw [div_lt_one hpos]; linarith

theorem random_double_range_bounds (RAND_MAX : Nat) (rand : Nat → Nat)
    (hrand : ∀ i, rand i ≤ RAND_MAX) (min max : K) (hmm : min ≤ max) (i : Nat) :
    min ≤ (random_double_range RAND_MAX rand min max i).1 ∧
      (random_double_range RAND_MAX rand min max i).1 ≤ max := by
  obtain ⟨h0, h1⟩ := random_double_bounds (K := K) RAND_MAX rand hrand i
  simp only [random_double_range]
  constructor
  · nlinarith
  · nlinarith

theorem in_unit_mul {x y : K} (hx : 0 ≤ x ∧ x < 1) (hy : 0 ≤ y ∧ y < 1) : in_unit (x * y) := by
  constructor
  · exact mul_nonneg hx.1 hy.1
  · nlinarith [hx.1, hx.2, hy.1, hy.2]

/-- The loop body appends nothing or one sphere that satisfies the data model. -/
theorem random_scene_cell_ok (sqrt : K → K) (RAND_MAX : Nat) (rand : Nat → Nat)
    (hrand : ∀ i, rand i ≤ RAND_MAX) (a b : Int) (st : List (hittable K) × Nat) :
    ∃ l, (random_scene_cell sqrt RAND_MAX rand a b st).1 = st.1 ++ l ∧ l.length ≤ 1 ∧
      ∀ h ∈ l, hittable_ok h := by
  have hr : (0 : K) < 0.2 := by norm_num
  unfold random_scene_cell
  dsimp only
  split_ifs with hd h1 h2
  · refine ⟨[_], rfl, le_rfl, ?_⟩
    intro h hh
    rw [List.mem_singleton] at hh
    subst hh
    refine ⟨hr, hr, hr, ?_, ?_, ?_⟩
    · intro ht; simp [make_sphere, make_lambertian] at ht
    · intro ht; simp [make_sphere, make_lambertian] at ht
    · intro _
      simp only [make_sphere, make_lambertian, random_float3]
      exact ⟨in_unit_mul (random_double_bounds RAND_MAX rand hrand _)
          (random_double_bounds RAND_MAX rand hrand _),
        in_unit_mul (random_double_bounds RAND_MAX rand hrand _)
          (random_double_bounds RAND_MAX rand hrand _),
        in_unit_mul (random_double_bounds RAND_MAX rand hrand _)
          (random_double_bounds RAND_MAX rand hrand _)⟩
  · refine ⟨[_], rfl, le_rfl, ?_⟩
    intro h hh
    rw [List.mem_singleton] at hh
    subst hh
    have hhalf : (0.5 : K) ≤ 1.0 := by norm_num
    have hz : (0 : K) ≤ 0.5 := by norm_num
    have hone : (1.0 : K) = 1 := by norm_num
    have hal : ∀ i, in_unit (random_double_range (K := K) RAND_MAX rand 0.5 1.0 i).1 := by
      intro i
      obtain ⟨h0, h1⟩ := random_double_range_bounds RAND_MAX rand hrand (0.5 : K) 1.0 hhalf i
      exact ⟨le_trans hz h0, le_trans h1 (le_of_eq hone)⟩
    refine ⟨hr, hr, hr, ?_, ?_, ?_⟩
    · intro _
      obtain ⟨h0, h1⟩ := random_double_range_bounds RAND_MAX rand hrand (0 : K) 0.5 hz
        (random_float3_range (K := K) RAND_MAX rand 0.5 1.0
          (random_double (K := K) RAND_MAX rand
            (random_double (K := K) RAND_MAX rand
              (random_double (K := K) RAND_MAX rand st.2).2).2).2).2
      exact ⟨h0, le_trans h1 (by norm_num)⟩
    · intro ht; simp [make_sphere, make_metal] at ht
    · intro _
      simp only [make_sphere, make_metal, random_float3_range]
      exact ⟨hal _, hal _, hal _⟩
  · refine ⟨[_], rfl, le_rfl, ?_⟩
    intro h hh
    rw [List.mem_singleton] at hh
    subst hh
    refine ⟨hr, hr, hr, ?_, ?_, ?_⟩
    · intro ht; simp [make_sphere, make_dielectric] at ht
    · intro _
      show (0 : K) < 1.5
      norm_num
    · intro ht; simp [make_sphere, make_dielectric] at ht
  · exact ⟨[], by simp, by simp, by simp⟩

/-- C9: when every result of `rand()` is at most `RAND_MAX` (so that every
`random_double()` lies in `[0, 1)`), every hittable in the list returned by
`random_scene` satisfies the data model: each component of `dimension` is
positive, a metal has fuzz in `[0, 1]`, a dielectric has `ir > 0`, and every
albedo channel of a Lambertian or metal material lies in `[0, 1]`. -/
theorem random_scene_data_model (sqrt : K → K) (RAND_MAX : Nat) (rand : Nat → Nat)
    (hrand : ∀ i, rand i ≤ RAND_MAX) :
    ∀ h ∈ random_scene sqrt RAND_MAX rand, hittable_ok h := by
  obtain ⟨mid, h1, _, h3⟩ := random_scene_loops_append sqrt RAND_MAX rand _
    (random_scene_cell_ok sqrt RAND_MAX rand hrand)
    ([make_sphere ⟨0, -1000, 0⟩ 1000
      { type := .LAMBERTIAN, albedo := ⟨0.5, 0.5, 0.5⟩, fuzz := 0, ir := 0 }], 0)
  intro h hh
  unfold random_scene at hh
  dsimp only at hh
  rw [h1] at hh
  simp only [List.mem_append, List.mem_singleton] at hh
  rcases hh with ((((hh | hh) | hh) | hh) | hh)
  · subst hh
    simp only [hittable_ok, material_ok, in_unit, make_sphere]
    norm_num
    decide
  · exact h3 h hh
  · subst hh
    simp only [hittable_ok, material_ok, in_unit, make_sphere]
    norm_num
  · subst hh
    simp only [hittable_ok, material_ok, in_unit, make_sphere]
    norm_num
    decide
  · subst hh
    simp only [hittable_ok, material_ok, in_unit, make_sphere]
    norm_num
    decide

/-- Witness for C9: a linear congruential `rand()` with `RAND_MAX = 2^31 - 1`. -/
theorem random_scene_data_model_witness :
    (∀ i : Nat, (i * 1103515245 + 12345) % 2147483648 ≤ 2147483647) ∧
      ∀ h ∈ random_scene Real.sqrt 2147483647
          (fun i => (i * 1103515245 + 12345) % 2147483648),
        hittable_ok h :=
  ⟨fun i => by omega,
    random_scene_data_model Real.sqrt 2147483647
      (fun i => (i * 1103515245 + 12345) % 2147483648)
      (fun i => Nat.lt_succ_iff.mp (Nat.mod_lt _ (by decide)))⟩

end scene_proofs

end RtWeekend
